import Mathlib

/-!
# Verification of the Sprite2Beads palette nearest-color matcher

Shallow embedding of `src/Sprite2Beads.py` (classes `BeadColor` and
`BeadPalette`).  RGB components are modelled as integers; the Python float
arithmetic of the distance formulas is modelled with exact rationals for the
radicands (the expressions under `math.sqrt`) and with `Real.sqrt` for the
returned distance values.  Since `Real.sqrt` is strictly monotone on
nonnegative arguments, comparing radicands agrees with the source's
comparisons of float distances wherever the radicands are nonnegative
(which holds on the documented domain `[0,255]^3`; see `distVal_nonneg`).

The per-entry lazy caches (`self.yuv`, `self.hsv`) are modelled by explicit
state passing: every distance computation returns the possibly-updated
`BeadColor` alongside its value.  `raise ValueError` is modelled with
`Except PyError`.
-/

set_option autoImplicit false

/-- An RGB triple: three integers (the source reads them from image pixels
and palette files; the documented domain is `[0,255]` per component). -/
def RGB : Type := ℤ × ℤ × ℤ

deriving instance DecidableEq for RGB

/-- `rgb` has all three components in `[0, 255]`. -/
def RGBInRange (c : RGB) : Prop :=
  0 ≤ c.1 ∧ c.1 ≤ 255 ∧ 0 ≤ c.2.1 ∧ c.2.1 ≤ 255 ∧ 0 ≤ c.2.2 ∧ c.2.2 ≤ 255

instance : DecidablePred RGBInRange := fun c =>
  inferInstanceAs (Decidable (_ ∧ _))

/-- Python's `str.upper` for the ASCII tags used here, modelled
characterwise on the string's character list.  (`String.toUpper` is the
same map, but its library definition does not reduce in the kernel, which
would block evaluating the embedding on concrete inputs.) -/
def pyUpper (s : String) : String := ⟨s.data.map Char.toUpper⟩

/-- Python exceptions raised by the embedded code. -/
inductive PyError where
  | valueError
  deriving DecidableEq

/-- Class `BeadColor`: a named palette color with lazily-cached YUV and HSV
representations (`None` until first use, per `__init__`). -/
structure BeadColor where
  name : String
  rgb : RGB
  yuv : Option (ℚ × ℚ × ℚ)
  hsv : Option (ℚ × ℚ × ℚ)
  deriving DecidableEq

/-- `BeadColor.__init__`: both caches start at `None`. -/
def BeadColor.init (name : String) (rgb : RGB) : BeadColor :=
  ⟨name, rgb, none, none⟩

/-- `BeadColor.__rgb2yuv`: `y = 0.299r + 0.587g + 0.114b`,
`u = 0.492(b - y)`, `v = 0.877(r - y)` (exact rationals). -/
def rgb2yuv (rgb : RGB) : ℚ × ℚ × ℚ :=
  let r : ℚ := rgb.1
  let g : ℚ := rgb.2.1
  let b : ℚ := rgb.2.2
  let y := 0.299 * r + 0.587 * g + 0.114 * b
  let u := 0.492 * (b - y)
  let v := 0.877 * (r - y)
  (y, u, v)

/-- Modelled from the spec: `colorsys.rgb_to_hsv` from the Python standard
library (not part of this repository; `BeadColor.__rgb2hsv` calls it).
Standard RGB→HSV with `h, s, v ∈ [0,1]`, transcribed from its documented
algorithm: `maxc/minc`, early return on `minc == maxc`, sector selection on
the maximal channel, and `h = (h/6) % 1`. -/
def rgb_to_hsv (r g b : ℚ) : ℚ × ℚ × ℚ :=
  let maxc := max r (max g b)
  let minc := min r (min g b)
  let rangec := maxc - minc
  let v := maxc
  if minc = maxc then (0, 0, v)
  else
    let s := rangec / maxc
    let rc := (maxc - r) / rangec
    let gc := (maxc - g) / rangec
    let bc := (maxc - b) / rangec
    let h :=
      if r = maxc then bc - gc
      else if g = maxc then 2 + rc - bc
      else 4 + gc - rc
    (Int.fract (h / 6), s, v)

/-- `BeadColor.__rgb2hsv`: converts via `colorsys.rgb_to_hsv(r/255, g/255,
b/255)` and scales hue to degrees, returning `[h*360, s, v]`. -/
def rgb2hsv (rgb : RGB) : ℚ × ℚ × ℚ :=
  let (h, s, v) := rgb_to_hsv ((rgb.1 : ℚ) / 255) ((rgb.2.1 : ℚ) / 255) ((rgb.2.2 : ℚ) / 255)
  (h * 360, s, v)

/-- Radicand of `BeadColor.__distance_rgb`:
`rmean = r1 + r2 / 2` (the source's precedence: `r1 + (r2 / 2)`), then
`(2 + rmean/256)*dr + 4*dg + (2 + (255 - rmean)/256)*db` with
`dr = (r1-r2)^2` etc.  The source returns the square root of this. -/
def BeadColor.distance_rgb_sq (c : BeadColor) (rgb : RGB) : ℚ :=
  let r1 : ℚ := c.rgb.1
  let g1 : ℚ := c.rgb.2.1
  let b1 : ℚ := c.rgb.2.2
  let r2 : ℚ := rgb.1
  let g2 : ℚ := rgb.2.1
  let b2 : ℚ := rgb.2.2
  let rmean := r1 + r2 / 2
  let dr := (r1 - r2) ^ 2
  let dg := (g1 - g2) ^ 2
  let db := (b1 - b2) ^ 2
  ((2 + rmean / 256) * dr) + (4 * dg) + ((2 + (255 - rmean) / 256) * db)

/-- Variant radicand following the spec's words for the conventional
formula: the true mean `(a.r + b.r) / 2` instead of the source's
`a.r + b.r/2`; used only to compare against `BeadColor.distance_rgb_sq`. -/
def distance_rgb_truemean_sq (a b : RGB) : ℚ :=
  let r1 : ℚ := a.1
  let g1 : ℚ := a.2.1
  let b1 : ℚ := a.2.2
  let r2 : ℚ := b.1
  let g2 : ℚ := b.2.1
  let b2 : ℚ := b.2.2
  let rmean := (r1 + r2) / 2
  let dr := (r1 - r2) ^ 2
  let dg := (g1 - g2) ^ 2
  let db := (b1 - b2) ^ 2
  ((2 + rmean / 256) * dr) + (4 * dg) + ((2 + (255 - rmean) / 256) * db)

/-- Sum of squared componentwise differences of two triples: the radicand of
`__distance_yuv`'s `sqrt((y1-y2)**2 + (u1-u2)**2 + (v1-v2)**2)`. -/
def sqDist3 (p q : ℚ × ℚ × ℚ) : ℚ :=
  (p.1 - q.1) ^ 2 + (p.2.1 - q.2.1) ^ 2 + (p.2.2 - q.2.2) ^ 2

/-- `BeadColor.__distance_yuv` (radicand and updated state): fills the `yuv`
cache from the entry's own rgb if unset, converts the query fresh, and
returns the squared Euclidean YUV distance. -/
def BeadColor.distance_yuv_sq (c : BeadColor) (rgb : RGB) : ℚ × BeadColor :=
  match c.yuv with
  | none =>
      let cy := rgb2yuv c.rgb
      (sqDist3 cy (rgb2yuv rgb), { c with yuv := some cy })
  | some cy => (sqDist3 cy (rgb2yuv rgb), c)

/-- The source line `dh = min(abs(h2-h1), 360-abs(h2-h1)) / 180.0`:
circular hue difference, normalized. -/
def hueDist (h1 h2 : ℚ) : ℚ :=
  min |h2 - h1| (360 - |h2 - h1|) / 180

/-- Radicand of `__distance_hsv`: `dh*dh + ds*ds + dv*dv` with
`dh = hueDist h1 h2`, `ds = |s2 - s1|`, `dv = |v2 - v1|`. -/
def hsvSqDist (p q : ℚ × ℚ × ℚ) : ℚ :=
  let dh := hueDist p.1 q.1
  let ds := |q.2.1 - p.2.1|
  let dv := |q.2.2 - p.2.2|
  dh * dh + ds * ds + dv * dv

/-- `BeadColor.__distance_hsv` (radicand and updated state): fills the `hsv`
cache from the entry's own rgb if unset, converts the query fresh, and
returns the squared cylindrical HSV distance. -/
def BeadColor.distance_hsv_sq (c : BeadColor) (rgb : RGB) : ℚ × BeadColor :=
  match c.hsv with
  | none =>
      let ch := rgb2hsv c.rgb
      (hsvSqDist ch (rgb2hsv rgb), { c with hsv := some ch })
  | some ch => (hsvSqDist ch (rgb2hsv rgb), c)

/-- `BeadColor.get_distance` (radicand and updated state): dispatch on
`color_space.upper()`; Python's `match`/`case` on string literals is
sequential equality testing, transcribed as nested `if`.  Unknown tags
`raise ValueError`. -/
def BeadColor.get_distance_sq (c : BeadColor) (color_space : String) (rgb : RGB) :
    Except PyError (ℚ × BeadColor) :=
  let s := pyUpper color_space
  if s = "RGB" then .ok (c.distance_rgb_sq rgb, c)
  else if s = "YUV" then .ok (c.distance_yuv_sq rgb)
  else if s = "HSV" then .ok (c.distance_hsv_sq rgb)
  else .error .valueError

/-- The float distance the source returns: square root of the radicand. -/
noncomputable def BeadColor.distance_rgb (c : BeadColor) (rgb : RGB) : ℝ :=
  Real.sqrt (c.distance_rgb_sq rgb)

/-- The float value returned by `__distance_yuv`. -/
noncomputable def BeadColor.distance_yuv (c : BeadColor) (rgb : RGB) : ℝ :=
  Real.sqrt ((c.distance_yuv_sq rgb).1)

/-- The float value returned by `__distance_hsv`. -/
noncomputable def BeadColor.distance_hsv (c : BeadColor) (rgb : RGB) : ℝ :=
  Real.sqrt ((c.distance_hsv_sq rgb).1)

/-- `BeadColor.get_textcolor`: black `(0,0,0)` when the component sum
exceeds `128*3`, else white `(255,255,255)` (the source's
`ImageColor.getrgb("black")` / `("white")` inlined). -/
def BeadColor.get_textcolor (c : BeadColor) : RGB :=
  if 128 * 3 < c.rgb.1 + c.rgb.2.1 + c.rgb.2.2 then (0, 0, 0)
  else (255, 255, 255)

/-- Class `BeadPalette`: an ordered list of `BeadColor`. -/
structure BeadPalette where
  palette : List BeadColor
  deriving DecidableEq

/-- `BeadPalette.add`: appends. -/
def BeadPalette.add (p : BeadPalette) (color : BeadColor) : BeadPalette :=
  ⟨p.palette ++ [color]⟩

/-- The scan loop of `BeadPalette.get_closest`, threading the running
minimum (`⊤` models `float('inf')`), the best entry so far, and the
cache updates of the visited entries.  `min_distance` holds the radicand:
`sqrt` is strictly monotone on nonnegatives, so `distance < min_distance`
on radicands agrees with the source's comparison of float distances. -/
def closestLoop (color_space : String) (rgb : RGB) :
    List BeadColor → WithTop ℚ → Option BeadColor →
    Except PyError (Option BeadColor × List BeadColor)
  | [], _, best => .ok (best, [])
  | color :: rest, min_distance, best =>
    match color.get_distance_sq color_space rgb with
    | .error e => .error e
    | .ok (d, color') =>
      let st :=
        if (d : WithTop ℚ) < min_distance then ((d : WithTop ℚ), some color')
        else (min_distance, best)
      match closestLoop color_space rgb rest st.1 st.2 with
      | .error e => .error e
      | .ok (b, rest') => .ok (b, color' :: rest')

/-- `BeadPalette.get_closest`: scan with `min_distance = float('inf')` and
`best_color = None`; returns `best_color` (possibly `None` on an empty
palette) and the palette with any cache updates. -/
def BeadPalette.get_closest (p : BeadPalette) (color_space : String) (rgb : RGB) :
    Except PyError (Option BeadColor × BeadPalette) :=
  (closestLoop color_space rgb p.palette ⊤ none).map fun r => (r.1, ⟨r.2⟩)

/-- The distance radicand as a pure function of the color space, the
entry's rgb and the query (what any cache-consistent entry computes). -/
def distVal (color_space : String) (a b : RGB) : ℚ :=
  let s := pyUpper color_space
  if s = "RGB" then (BeadColor.init "" a).distance_rgb_sq b
  else if s = "YUV" then sqDist3 (rgb2yuv a) (rgb2yuv b)
  else if s = "HSV" then hsvSqDist (rgb2hsv a) (rgb2hsv b)
  else 0

/-- Cache consistency: each cache is either unset or holds the conversion of
the entry's own rgb (the data-model invariant; fresh entries satisfy it). -/
def CacheOK (c : BeadColor) : Prop :=
  (c.yuv = none ∨ c.yuv = some (rgb2yuv c.rgb)) ∧
  (c.hsv = none ∨ c.hsv = some (rgb2hsv c.rgb))

instance : DecidablePred CacheOK := fun c =>
  inferInstanceAs (Decidable (_ ∧ _))

/-- A valid color-space tag: some letter case of rgb / yuv / hsv. -/
def ValidSpace (color_space : String) : Prop :=
  pyUpper color_space = "RGB" ∨ pyUpper color_space = "YUV" ∨
    pyUpper color_space = "HSV"

instance : DecidablePred ValidSpace := fun s =>
  inferInstanceAs (Decidable (_ ∨ _))

/-- The cache update `get_distance` performs for a given tag. -/
def updateCache (color_space : String) (c : BeadColor) : BeadColor :=
  if pyUpper color_space = "YUV" then { c with yuv := some (rgb2yuv c.rgb) }
  else if pyUpper color_space = "HSV" then { c with hsv := some (rgb2hsv c.rgb) }
  else c

lemma updateCache_rgb (s : String) (c : BeadColor) : (updateCache s c).rgb = c.rgb := by
  unfold updateCache; split_ifs <;> rfl

lemma updateCache_name (s : String) (c : BeadColor) : (updateCache s c).name = c.name := by
  unfold updateCache; split_ifs <;> rfl

lemma updateCache_cacheOK {c : BeadColor} (s : String) (hc : CacheOK c) :
    CacheOK (updateCache s c) := by
  obtain ⟨n, r, y, h⟩ := c
  unfold updateCache CacheOK at *
  split_ifs <;> simp_all

lemma distance_yuv_sq_eq {c : BeadColor} (q : RGB)
    (hc : c.yuv = none ∨ c.yuv = some (rgb2yuv c.rgb)) :
    c.distance_yuv_sq q =
      (sqDist3 (rgb2yuv c.rgb) (rgb2yuv q), { c with yuv := some (rgb2yuv c.rgb) }) := by
  obtain ⟨n, r, y, h⟩ := c
  rcases hc with hy | hy <;> simp_all [BeadColor.distance_yuv_sq]

lemma distance_hsv_sq_eq {c : BeadColor} (q : RGB)
    (hc : c.hsv = none ∨ c.hsv = some (rgb2hsv c.rgb)) :
    c.distance_hsv_sq q =
      (hsvSqDist (rgb2hsv c.rgb) (rgb2hsv q), { c with hsv := some (rgb2hsv c.rgb) }) := by
  obtain ⟨n, r, y, h⟩ := c
  rcases hc with hy | hy <;> simp_all [BeadColor.distance_hsv_sq]

/-- On a cache-consistent entry and a valid tag, `get_distance` returns the
pure distance radicand of the entry's rgb and performs the tag's cache
update. -/
lemma get_distance_sq_ok {c : BeadColor} {s : String} (q : RGB)
    (hc : CacheOK c) (hs : ValidSpace s) :
    c.get_distance_sq s q = .ok (distVal s c.rgb q, updateCache s c) := by
  rcases hs with h | h | h <;>
    simp [BeadColor.get_distance_sq, distVal, updateCache, h,
      distance_yuv_sq_eq q hc.1, distance_hsv_sq_eq q hc.2, BeadColor.distance_rgb_sq,
      BeadColor.init]

/-- On an invalid tag, `get_distance` raises `ValueError`. -/
lemma get_distance_sq_err {s : String} (c : BeadColor) (q : RGB)
    (hs : ¬ ValidSpace s) :
    c.get_distance_sq s q = .error .valueError := by
  unfold ValidSpace at hs
  push_neg at hs
  simp [BeadColor.get_distance_sq, hs.1, hs.2.1, hs.2.2]

/-- Full characterization of the scan loop on cache-consistent entries and a
valid tag: it succeeds, and either no entry improved on the incoming
minimum (the incoming best is returned), or the returned entry is the
earliest entry strictly below the incoming minimum that also minimizes the
distance over the whole list. -/
lemma closestLoop_spec {s : String} (q : RGB) (hs : ValidSpace s) :
    ∀ (l : List BeadColor) (minD : WithTop ℚ) (best : Option BeadColor),
    (∀ c ∈ l, CacheOK c) →
    ∃ r l', closestLoop s q l minD best = .ok (r, l') ∧
      ((r = best ∧ ∀ e ∈ l, minD ≤ (distVal s e.rgb q : WithTop ℚ)) ∨
       (∃ bb, r = some bb ∧
         (∃ i, ∃ hi : i < l.length, bb.rgb = (l.get ⟨i, hi⟩).rgb ∧
           bb.name = (l.get ⟨i, hi⟩).name ∧
           ∀ j, ∀ hj : j < l.length, j < i →
             distVal s bb.rgb q < distVal s (l.get ⟨j, hj⟩).rgb q) ∧
         ((distVal s bb.rgb q : WithTop ℚ) < minD) ∧
         (∀ e ∈ l, distVal s bb.rgb q ≤ distVal s e.rgb q))) := by
  intro l
  induction l with
  | nil =>
    intro minD best _
    exact ⟨best, [], rfl, Or.inl ⟨rfl, by simp⟩⟩
  | cons c rest ih =>
    intro minD best hwf
    have hc : CacheOK c := hwf c (by simp)
    have hrest : ∀ e ∈ rest, CacheOK e := fun e he => hwf e (by simp [he])
    have hok := get_distance_sq_ok (c := c) (s := s) q hc hs
    by_cases hlt : (distVal s c.rgb q : WithTop ℚ) < minD
    · obtain ⟨r, l', hl, hspec⟩ :=
        ih ((distVal s c.rgb q : ℚ) : WithTop ℚ) (some (updateCache s c)) hrest
      refine ⟨r, updateCache s c :: l', ?_, ?_⟩
      · simp only [closestLoop, hok, hlt, if_pos, hl]
      · rcases hspec with ⟨hr, hmin⟩ | ⟨bb, hr, ⟨i, hi, hrgb, hname, hearlier⟩, hblt, hble⟩
        · right
          refine ⟨updateCache s c, hr, ⟨0, by simp, by simp [updateCache_rgb],
            by simp [updateCache_name], fun j hj hji => absurd hji (Nat.not_lt_zero _)⟩,
            ?_, ?_⟩
          · rw [updateCache_rgb]; exact hlt
          · intro e he
            rw [updateCache_rgb]
            rcases List.mem_cons.mp he with rfl | he
            · exact le_refl _
            · exact_mod_cast hmin e he
        · right
          have hbc : distVal s bb.rgb q < distVal s c.rgb q := by exact_mod_cast hblt
          refine ⟨bb, hr, ⟨i + 1, by simpa using Nat.succ_lt_succ hi, by simpa using hrgb,
            by simpa using hname, ?_⟩, lt_trans hblt hlt, ?_⟩
          · intro j hj hji
            cases j with
            | zero => simpa using hbc
            | succ k =>
              have hk : k < rest.length := by simpa using hj
              have := hearlier k hk (Nat.lt_of_succ_lt_succ hji)
              simpa using this
          · intro e he
            rcases List.mem_cons.mp he with rfl | he
            · exact le_of_lt hbc
            · exact hble e he
    · obtain ⟨r, l', hl, hspec⟩ := ih minD best hrest
      refine ⟨r, updateCache s c :: l', ?_, ?_⟩
      · simp only [closestLoop, hok, hlt, if_neg, if_false, hl]
      · rcases hspec with ⟨hr, hmin⟩ | ⟨bb, hr, ⟨i, hi, hrgb, hname, hearlier⟩, hblt, hble⟩
        · left
          refine ⟨hr, fun e he => ?_⟩
          rcases List.mem_cons.mp he with rfl | he
          · exact not_lt.mp hlt
          · exact hmin e he
        · right
          have hbc : (distVal s bb.rgb q : WithTop ℚ) < (distVal s c.rgb q : WithTop ℚ) :=
            lt_of_lt_of_le hblt (not_lt.mp hlt)
          refine ⟨bb, hr, ⟨i + 1, by simpa using Nat.succ_lt_succ hi, by simpa using hrgb,
            by simpa using hname, ?_⟩, hblt, ?_⟩
          · intro j hj hji
            cases j with
            | zero => simpa using (by exact_mod_cast hbc : distVal s bb.rgb q < distVal s c.rgb q)
            | succ k =>
              have hk : k < rest.length := by simpa using hj
              have := hearlier k hk (Nat.lt_of_succ_lt_succ hji)
              simpa using this
          · intro e he
            rcases List.mem_cons.mp he with rfl | he
            · exact le_of_lt (by exact_mod_cast hbc)
            · exact hble e he

/-- `get_closest` on a nonempty, cache-consistent palette with a valid tag
returns the earliest global minimizer of the distance radicand. -/
lemma get_closest_spec {p : BeadPalette} {s : String} (q : RGB)
    (hs : ValidSpace s) (hne : p.palette ≠ [])
    (hwf : ∀ c ∈ p.palette, CacheOK c) :
    ∃ bb p', p.get_closest s q = .ok (some bb, p') ∧
      (∃ i, ∃ hi : i < p.palette.length,
        bb.rgb = (p.palette.get ⟨i, hi⟩).rgb ∧
        bb.name = (p.palette.get ⟨i, hi⟩).name ∧
        ∀ j, ∀ hj : j < p.palette.length, j < i →
          distVal s bb.rgb q < distVal s (p.palette.get ⟨j, hj⟩).rgb q) ∧
      (∀ e ∈ p.palette, distVal s bb.rgb q ≤ distVal s e.rgb q) := by
  obtain ⟨r, l', hl, hspec⟩ := closestLoop_spec q hs p.palette ⊤ none hwf
  rcases hspec with ⟨hr, hmin⟩ | ⟨bb, hr, hidx, _, hble⟩
  · obtain ⟨c, hc⟩ := List.exists_mem_of_ne_nil p.palette hne
    exact absurd (top_le_iff.mp (hmin c hc)) (WithTop.coe_ne_top)
  · subst hr
    exact ⟨bb, ⟨l'⟩, by simp [BeadPalette.get_closest, hl, Except.map], hidx, hble⟩

/-- The RGB radicand is nonnegative on the documented domain: both
color-dependent weights are strictly positive there. -/
lemma distance_rgb_sq_nonneg {c : BeadColor} {q : RGB}
    (h1 : RGBInRange c.rgb) (h2 : RGBInRange q) :
    0 < 2 + ((c.rgb.1 : ℚ) + (q.1 : ℚ) / 2) / 256 ∧
    0 < 2 + (255 - ((c.rgb.1 : ℚ) + (q.1 : ℚ) / 2)) / 256 ∧
    0 ≤ c.distance_rgb_sq q := by
  obtain ⟨hr0, hr1, _, _, _, _⟩ := h1
  obtain ⟨hq0, hq1, _, _, _, _⟩ := h2
  have hr0q : (0 : ℚ) ≤ c.rgb.1 := by exact_mod_cast hr0
  have hr1q : (c.rgb.1 : ℚ) ≤ 255 := by exact_mod_cast hr1
  have hq0q : (0 : ℚ) ≤ q.1 := by exact_mod_cast hq0
  have hq1q : (q.1 : ℚ) ≤ 255 := by exact_mod_cast hq1
  have hw1 : 0 < 2 + ((c.rgb.1 : ℚ) + (q.1 : ℚ) / 2) / 256 := by linarith
  have hw2 : 0 < 2 + (255 - ((c.rgb.1 : ℚ) + (q.1 : ℚ) / 2)) / 256 := by linarith
  refine ⟨hw1, hw2, ?_⟩
  show 0 ≤ (2 + ((c.rgb.1 : ℚ) + (q.1 : ℚ) / 2) / 256) * ((c.rgb.1 : ℚ) - (q.1 : ℚ)) ^ 2 +
      4 * ((c.rgb.2.1 : ℚ) - (q.2.1 : ℚ)) ^ 2 +
      (2 + (255 - ((c.rgb.1 : ℚ) + (q.1 : ℚ) / 2)) / 256) * ((c.rgb.2.2 : ℚ) - (q.2.2 : ℚ)) ^ 2
  have := sq_nonneg ((c.rgb.1 : ℚ) - (q.1 : ℚ))
  have := sq_nonneg ((c.rgb.2.1 : ℚ) - (q.2.1 : ℚ))
  have := sq_nonneg ((c.rgb.2.2 : ℚ) - (q.2.2 : ℚ))
  nlinarith

/-- The YUV radicand is a sum of squares. -/
lemma sqDist3_nonneg (p q : ℚ × ℚ × ℚ) : 0 ≤ sqDist3 p q := by
  unfold sqDist3; positivity

/-- The HSV radicand is a sum of squares. -/
lemma hsvSqDist_nonneg (p q : ℚ × ℚ × ℚ) : 0 ≤ hsvSqDist p q := by
  simp only [hsvSqDist]
  have h1 := mul_self_nonneg (hueDist p.1 q.1)
  have h2 := mul_self_nonneg |q.2.1 - p.2.1|
  have h3 := mul_self_nonneg |q.2.2 - p.2.2|
  linarith

/-- On the documented domain every radicand is nonnegative, so the float
comparisons of the source agree with the radicand comparisons. -/
lemma distVal_nonneg {s : String} {a b : RGB}
    (ha : RGBInRange a) (hb : RGBInRange b) : 0 ≤ distVal s a b := by
  simp only [distVal]
  split_ifs
  · exact (distance_rgb_sq_nonneg (c := BeadColor.init "" a) (q := b) ha hb).2.2
  · exact sqDist3_nonneg _ _
  · exact hsvSqDist_nonneg _ _
  · exact le_refl 0

/-- Claim C1: for every nonempty palette (cache-consistent entries with
components in `[0,255]`, per the data model), every valid color-space tag
(any letter case of rgb/yuv/hsv) and every query with components in
`[0,255]`, `get_closest` returns an entry of the palette whose distance to
the query under that metric is a global minimum over the palette. -/
theorem get_closest_returns_minimizer (p : BeadPalette) (s : String) (q : RGB)
    (hne : p.palette ≠ []) (hs : ValidSpace s)
    (hwf : ∀ c ∈ p.palette, CacheOK c ∧ RGBInRange c.rgb) (hq : RGBInRange q) :
    ∃ bb p', p.get_closest s q = Except.ok (some bb, p') ∧
      (∃ e ∈ p.palette, bb.name = e.name ∧ bb.rgb = e.rgb) ∧
      ∀ e ∈ p.palette,
        Real.sqrt (distVal s bb.rgb q : ℝ) ≤ Real.sqrt (distVal s e.rgb q : ℝ) := by
  obtain ⟨bb, p', hcl, ⟨i, hi, hrgb, hname, _⟩, hble⟩ :=
    get_closest_spec q hs hne (fun c hc => (hwf c hc).1)
  refine ⟨bb, p', hcl, ⟨p.palette.get ⟨i, hi⟩, List.get_mem _ _ _, hname, hrgb⟩, ?_⟩
  intro e he
  exact Real.sqrt_le_sqrt (by exact_mod_cast hble e he)

theorem get_closest_returns_minimizer_witness :
    ∃ bb p',
      (BeadPalette.mk [BeadColor.init "red" (255, 0, 0), BeadColor.init "blue" (0, 0, 255)]).get_closest
        "RGB" (250, 5, 5) = Except.ok (some bb, p') ∧
      (∃ e ∈ [BeadColor.init "red" (255, 0, 0), BeadColor.init "blue" (0, 0, 255)],
        bb.name = e.name ∧ bb.rgb = e.rgb) ∧
      ∀ e ∈ [BeadColor.init "red" (255, 0, 0), BeadColor.init "blue" (0, 0, 255)],
        Real.sqrt (distVal "RGB" bb.rgb (250, 5, 5) : ℝ) ≤
          Real.sqrt (distVal "RGB" e.rgb (250, 5, 5) : ℝ) :=
  get_closest_returns_minimizer
    (BeadPalette.mk [BeadColor.init "red" (255, 0, 0), BeadColor.init "blue" (0, 0, 255)])
    "RGB" (250, 5, 5) (by decide) (by decide) (by decide) (by decide)

/-- Claim C4: `get_closest` returns the earliest entry attaining the
minimum distance: the scan updates only on strictly smaller distances, so
the returned entry minimizes the distance over the palette and every
earlier entry is at strictly larger distance (in particular, of two or
more entries at equal minimum distance, the one inserted first wins). -/
theorem get_closest_tie_break_first (p : BeadPalette) (s : String) (q : RGB)
    (hne : p.palette ≠ []) (hs : ValidSpace s)
    (hwf : ∀ c ∈ p.palette, CacheOK c ∧ RGBInRange c.rgb) (hq : RGBInRange q) :
    ∃ bb p', p.get_closest s q = Except.ok (some bb, p') ∧
      ∃ i, ∃ hi : i < p.palette.length,
        bb.name = (p.palette.get ⟨i, hi⟩).name ∧
        bb.rgb = (p.palette.get ⟨i, hi⟩).rgb ∧
        (∀ e ∈ p.palette,
          Real.sqrt (distVal s bb.rgb q : ℝ) ≤ Real.sqrt (distVal s e.rgb q : ℝ)) ∧
        ∀ j, ∀ hj : j < p.palette.length, j < i →
          Real.sqrt (distVal s bb.rgb q : ℝ) <
            Real.sqrt (distVal s (p.palette.get ⟨j, hj⟩).rgb q : ℝ) := by
  obtain ⟨bb, p', hcl, ⟨i, hi, hrgb, hname, hearlier⟩, hble⟩ :=
    get_closest_spec q hs hne (fun c hc => (hwf c hc).1)
  have hbbrange : RGBInRange bb.rgb := by
    rw [hrgb]; exact (hwf _ (List.get_mem _ _ _)).2
  have hbb0 : (0 : ℝ) ≤ (distVal s bb.rgb q : ℝ) := by
    exact_mod_cast distVal_nonneg hbbrange hq
  refine ⟨bb, p', hcl, i, hi, hname, hrgb, ?_, ?_⟩
  · intro e he
    exact Real.sqrt_le_sqrt (by exact_mod_cast hble e he)
  · intro j hj hji
    exact Real.sqrt_lt_sqrt hbb0 (by exact_mod_cast hearlier j hj hji)

theorem get_closest_tie_break_first_witness :
    ∃ bb p',
      (BeadPalette.mk [BeadColor.init "A" (9, 9, 9), BeadColor.init "B" (9, 9, 9)]).get_closest
        "rgb" (0, 0, 0) = Except.ok (some bb, p') ∧
      ∃ i, ∃ hi : i < ([BeadColor.init "A" (9, 9, 9), BeadColor.init "B" (9, 9, 9)] : List BeadColor).length,
        bb.name = (([BeadColor.init "A" (9, 9, 9), BeadColor.init "B" (9, 9, 9)] : List BeadColor).get ⟨i, hi⟩).name ∧
        bb.rgb = (([BeadColor.init "A" (9, 9, 9), BeadColor.init "B" (9, 9, 9)] : List BeadColor).get ⟨i, hi⟩).rgb ∧
        (∀ e ∈ ([BeadColor.init "A" (9, 9, 9), BeadColor.init "B" (9, 9, 9)] : List BeadColor),
          Real.sqrt (distVal "rgb" bb.rgb (0, 0, 0) : ℝ) ≤ Real.sqrt (distVal "rgb" e.rgb (0, 0, 0) : ℝ)) ∧
        ∀ j, ∀ hj : j < ([BeadColor.init "A" (9, 9, 9), BeadColor.init "B" (9, 9, 9)] : List BeadColor).length, j < i →
          Real.sqrt (distVal "rgb" bb.rgb (0, 0, 0) : ℝ) <
            Real.sqrt (distVal "rgb" (([BeadColor.init "A" (9, 9, 9), BeadColor.init "B" (9, 9, 9)] : List BeadColor).get ⟨j, hj⟩).rgb (0, 0, 0) : ℝ) :=
  get_closest_tie_break_first
    (BeadPalette.mk [BeadColor.init "A" (9, 9, 9), BeadColor.init "B" (9, 9, 9)])
    "rgb" (0, 0, 0) (by decide) (by decide) (by decide) (by decide)

/-- Claim C2 (the code contradicts it): `get_closest` on a palette with
zero entries returns `None` (`best_color` is never set and the loop body
never runs), for every color-space tag and query — it does not raise an
explicit NotFound/EmptyPalette error as the spec requires. -/
theorem get_closest_empty_returns_none (s : String) (q : RGB) :
    (BeadPalette.mk []).get_closest s q = Except.ok (none, BeadPalette.mk []) := rfl

/-- Claim C5, counterexample: on an empty palette the scan body never runs,
so an unknown tag `"XYZ"` passed to `get_closest` is never checked — the
call returns `Ok None` instead of failing with `ValueError`, refuting "for
every tag matching none of the three, nearest fails with InvalidArgument". -/
theorem get_closest_unknown_tag_empty_ok :
    (BeadPalette.mk []).get_closest "XYZ" (0, 0, 0) = Except.ok (none, BeadPalette.mk []) ∧
    (BeadPalette.mk []).get_closest "XYZ" (0, 0, 0) ≠ Except.error PyError.valueError := by
  refine ⟨rfl, fun h => ?_⟩
  rw [show (BeadPalette.mk []).get_closest "XYZ" (0, 0, 0) =
      Except.ok (none, BeadPalette.mk []) from rfl] at h
  exact Except.noConfusion h

/-- Claim C5, amended: `get_distance` dispatches on the upper-cased tag, so
any two tags with the same upper-casing behave identically; an unknown tag
makes `get_distance` raise `ValueError`, and makes `get_closest` raise
`ValueError` whenever the palette is nonempty; on an empty palette
`get_closest` returns `None` without ever checking the tag. -/
theorem get_distance_dispatch_amended :
    (∀ (c : BeadColor) (s1 s2 : String) (q : RGB), pyUpper s1 = pyUpper s2 →
      c.get_distance_sq s1 q = c.get_distance_sq s2 q) ∧
    (∀ (c : BeadColor) (s : String) (q : RGB), ¬ ValidSpace s →
      c.get_distance_sq s q = Except.error PyError.valueError) ∧
    (∀ (p : BeadPalette) (s : String) (q : RGB), ¬ ValidSpace s → p.palette ≠ [] →
      p.get_closest s q = Except.error PyError.valueError) ∧
    (∀ (s : String) (q : RGB),
      (BeadPalette.mk []).get_closest s q = Except.ok (none, BeadPalette.mk [])) := by
  refine ⟨?_, ?_, ?_, fun s q => rfl⟩
  · intro c s1 s2 q h
    simp only [BeadColor.get_distance_sq, h]
  · intro c s q hs
    exact get_distance_sq_err c q hs
  · intro p s q hs hne
    obtain ⟨c, rest, hcons⟩ := List.exists_cons_of_ne_nil hne
    simp [BeadPalette.get_closest, hcons, closestLoop, get_distance_sq_err c q hs,
      Except.map]

theorem get_distance_dispatch_amended_witness :
    (BeadColor.init "a" (1, 2, 3)).get_distance_sq "rgb" (0, 0, 0) =
      (BeadColor.init "a" (1, 2, 3)).get_distance_sq "RGB" (0, 0, 0) ∧
    (BeadColor.init "a" (1, 2, 3)).get_distance_sq "XYZ" (0, 0, 0) =
      Except.error PyError.valueError ∧
    (BeadPalette.mk [BeadColor.init "a" (1, 2, 3)]).get_closest "XYZ" (0, 0, 0) =
      Except.error PyError.valueError :=
  ⟨get_distance_dispatch_amended.1 (BeadColor.init "a" (1, 2, 3)) "rgb" "RGB" (0, 0, 0)
      (by decide),
   get_distance_dispatch_amended.2.1 (BeadColor.init "a" (1, 2, 3)) "XYZ" (0, 0, 0)
      (by decide),
   get_distance_dispatch_amended.2.2.1 (BeadPalette.mk [BeadColor.init "a" (1, 2, 3)])
      "XYZ" (0, 0, 0) (by decide) (by decide)⟩

/-- Claim C3: for entries and queries with components in `[0,255]`, the RGB
distance is the square root of
`(2 + rmean/256)·(a.r−b.r)² + 4·(a.g−b.g)² + (2 + (255−rmean)/256)·(a.b−b.b)²`
with `rmean = a.r + (b.r / 2)` — the source's non-standard precedence — and
this differs from the true-mean (`(a.r+b.r)/2`) variant, e.g. at
`a = (255,0,0)`, `b = (0,0,0)`. -/
theorem distance_rgb_matches_spec :
    (∀ (c : BeadColor) (q : RGB), RGBInRange c.rgb → RGBInRange q →
      c.distance_rgb q =
        Real.sqrt
          ((2 + ((c.rgb.1 : ℝ) + (q.1 : ℝ) / 2) / 256) * ((c.rgb.1 : ℝ) - (q.1 : ℝ)) ^ 2 +
            4 * ((c.rgb.2.1 : ℝ) - (q.2.1 : ℝ)) ^ 2 +
            (2 + (255 - ((c.rgb.1 : ℝ) + (q.1 : ℝ) / 2)) / 256) *
              ((c.rgb.2.2 : ℝ) - (q.2.2 : ℝ)) ^ 2)) ∧
    (BeadColor.init "" (255, 0, 0)).distance_rgb_sq (0, 0, 0) ≠
      distance_rgb_truemean_sq (255, 0, 0) (0, 0, 0) := by
  constructor
  · intro c q _ _
    unfold BeadColor.distance_rgb
    congr 1
    simp only [BeadColor.distance_rgb_sq]
    push_cast
    ring
  · simp only [BeadColor.distance_rgb_sq, distance_rgb_truemean_sq, BeadColor.init]
    norm_num

theorem distance_rgb_matches_spec_witness :
    (BeadColor.init "" (10, 20, 30)).distance_rgb (200, 100, 0) =
      Real.sqrt
        ((2 + ((10 : ℝ) + (200 : ℝ) / 2) / 256) * ((10 : ℝ) - (200 : ℝ)) ^ 2 +
          4 * ((20 : ℝ) - (100 : ℝ)) ^ 2 +
          (2 + (255 - ((10 : ℝ) + (200 : ℝ) / 2)) / 256) * ((30 : ℝ) - (0 : ℝ)) ^ 2) := by
  have h := distance_rgb_matches_spec.1 (BeadColor.init "" (10, 20, 30)) (200, 100, 0)
    (by decide) (by decide)
  simpa using h

/-- Claim C6: for every entry with a consistent (or unset) HSV cache and
every query, the HSV distance is
`sqrt(dh² + ds² + dv²)` with `dh = min(|H2−H1|, 360−|H2−H1|)/180`
(circular hue difference), `ds = |S2−S1|`, `dv = |V2−V1|`; and for hue
values 350° and 10° the hue component difference computes as 20°, not 340°
(`hueDist 350 10 * 180 = 20`). -/
theorem distance_hsv_matches_spec :
    (∀ (c : BeadColor) (q : RGB), (c.hsv = none ∨ c.hsv = some (rgb2hsv c.rgb)) →
      c.distance_hsv q =
        Real.sqrt
          ((min |((rgb2hsv q).1 : ℝ) - ((rgb2hsv c.rgb).1 : ℝ)|
              (360 - |((rgb2hsv q).1 : ℝ) - ((rgb2hsv c.rgb).1 : ℝ)|) / 180) ^ 2 +
            |((rgb2hsv q).2.1 : ℝ) - ((rgb2hsv c.rgb).2.1 : ℝ)| ^ 2 +
            |((rgb2hsv q).2.2 : ℝ) - ((rgb2hsv c.rgb).2.2 : ℝ)| ^ 2)) ∧
    hueDist 350 10 * 180 = 20 := by
  constructor
  · intro c q hc
    unfold BeadColor.distance_hsv
    rw [distance_hsv_sq_eq q hc]
    congr 1
    simp only [hsvSqDist, hueDist]
    push_cast
    ring
  · have habs : |(10 : ℚ) - 350| = 340 := by
      rw [abs_of_nonpos (by norm_num)]
      norm_num
    simp only [hueDist, habs]
    norm_num [min_def]

theorem distance_hsv_matches_spec_witness :
    (BeadColor.init "r" (255, 0, 0)).distance_hsv (0, 255, 0) =
      Real.sqrt
        ((min |((rgb2hsv (0, 255, 0)).1 : ℝ) - ((rgb2hsv (255, 0, 0)).1 : ℝ)|
            (360 - |((rgb2hsv (0, 255, 0)).1 : ℝ) - ((rgb2hsv (255, 0, 0)).1 : ℝ)|) / 180) ^ 2 +
          |((rgb2hsv (0, 255, 0)).2.1 : ℝ) - ((rgb2hsv (255, 0, 0)).2.1 : ℝ)| ^ 2 +
          |((rgb2hsv (0, 255, 0)).2.2 : ℝ) - ((rgb2hsv (255, 0, 0)).2.2 : ℝ)| ^ 2) :=
  distance_hsv_matches_spec.1 (BeadColor.init "r" (255, 0, 0)) (0, 255, 0) (Or.inl rfl)

/-- Claim C7: on a cache-consistent entry and a valid tag, `get_distance`
succeeds; the updated entry keeps its name, rgb and cache consistency; a
cache already set is never changed (computed at most once); an RGB query
touches no cache; a YUV (resp. HSV) query sets exactly the YUV (resp. HSV)
cache to the conversion of the entry's own rgb; and the returned value is a
pure function of the tag, the entry's rgb and the query — it equals the
value a fresh entry (both caches unset) computes, so no preceding query
sequence can change any distance result. -/
theorem get_distance_cache_spec (c : BeadColor) (s : String) (q : RGB)
    (hc : CacheOK c) (hs : ValidSpace s) :
    ∃ d c', c.get_distance_sq s q = Except.ok (d, c') ∧
      CacheOK c' ∧ c'.name = c.name ∧ c'.rgb = c.rgb ∧
      (∀ y, c.yuv = some y → c'.yuv = some y) ∧
      (∀ h, c.hsv = some h → c'.hsv = some h) ∧
      (pyUpper s = "RGB" → c' = c) ∧
      (pyUpper s = "YUV" → c'.yuv = some (rgb2yuv c.rgb) ∧ c'.hsv = c.hsv) ∧
      (pyUpper s = "HSV" → c'.hsv = some (rgb2hsv c.rgb) ∧ c'.yuv = c.yuv) ∧
      d = distVal s c.rgb q ∧
      (BeadColor.init c.name c.rgb).get_distance_sq s q =
        Except.ok (d, updateCache s (BeadColor.init c.name c.rgb)) := by
  refine ⟨distVal s c.rgb q, updateCache s c, get_distance_sq_ok q hc hs,
    updateCache_cacheOK s hc, updateCache_name s c, updateCache_rgb s c,
    ?_, ?_, ?_, ?_, ?_, rfl,
    get_distance_sq_ok q ⟨Or.inl rfl, Or.inl rfl⟩ hs⟩
  · intro y hy
    unfold updateCache
    split_ifs with h1 h2
    · rcases hc.1 with h | h
      · rw [hy] at h; exact Option.noConfusion h
      · rw [hy] at h
        simpa using h.symm
    · simpa using hy
    · exact hy
  · intro y hy
    unfold updateCache
    split_ifs with h1 h2
    · simpa using hy
    · rcases hc.2 with h | h
      · rw [hy] at h; exact Option.noConfusion h
      · rw [hy] at h
        simpa using h.symm
    · exact hy
  · intro h
    unfold updateCache
    rw [h, if_neg (by decide), if_neg (by decide)]
  · intro h
    unfold updateCache
    rw [h, if_pos rfl]
    exact ⟨rfl, rfl⟩
  · intro h
    unfold updateCache
    rw [h, if_neg (by decide), if_pos rfl]
    exact ⟨rfl, rfl⟩

theorem get_distance_cache_spec_witness :
    ∃ d c', (BeadColor.init "x" (1, 2, 3)).get_distance_sq "yuv" (4, 5, 6) = Except.ok (d, c') ∧
      CacheOK c' ∧ c'.name = (BeadColor.init "x" (1, 2, 3)).name ∧
      c'.rgb = (BeadColor.init "x" (1, 2, 3)).rgb ∧
      (∀ y, (BeadColor.init "x" (1, 2, 3)).yuv = some y → c'.yuv = some y) ∧
      (∀ h, (BeadColor.init "x" (1, 2, 3)).hsv = some h → c'.hsv = some h) ∧
      (pyUpper "yuv" = "RGB" → c' = BeadColor.init "x" (1, 2, 3)) ∧
      (pyUpper "yuv" = "YUV" →
        c'.yuv = some (rgb2yuv (BeadColor.init "x" (1, 2, 3)).rgb) ∧
        c'.hsv = (BeadColor.init "x" (1, 2, 3)).hsv) ∧
      (pyUpper "yuv" = "HSV" →
        c'.hsv = some (rgb2hsv (BeadColor.init "x" (1, 2, 3)).rgb) ∧
        c'.yuv = (BeadColor.init "x" (1, 2, 3)).yuv) ∧
      d = distVal "yuv" (BeadColor.init "x" (1, 2, 3)).rgb (4, 5, 6) ∧
      (BeadColor.init (BeadColor.init "x" (1, 2, 3)).name
          (BeadColor.init "x" (1, 2, 3)).rgb).get_distance_sq "yuv" (4, 5, 6) =
        Except.ok (d, updateCache "yuv"
          (BeadColor.init (BeadColor.init "x" (1, 2, 3)).name
            (BeadColor.init "x" (1, 2, 3)).rgb)) :=
  get_distance_cache_spec (BeadColor.init "x" (1, 2, 3)) "yuv" (4, 5, 6)
    (by decide) (by decide)

/-- Claim C8: `get_textcolor` returns white `(255,255,255)` whenever the
component sum is at most 384 and black `(0,0,0)` whenever it exceeds 384;
in particular white on `(255,255,255)` gives black, `(0,0,0)` gives white,
and the boundary `(128,128,128)` (sum exactly 384) gives white. -/
theorem get_textcolor_threshold :
    (∀ c : BeadColor, c.rgb.1 + c.rgb.2.1 + c.rgb.2.2 ≤ 384 →
      c.get_textcolor = (255, 255, 255)) ∧
    (∀ c : BeadColor, 384 < c.rgb.1 + c.rgb.2.1 + c.rgb.2.2 →
      c.get_textcolor = (0, 0, 0)) ∧
    (BeadColor.init "" (255, 255, 255)).get_textcolor = (0, 0, 0) ∧
    (BeadColor.init "" (0, 0, 0)).get_textcolor = (255, 255, 255) ∧
    (BeadColor.init "" (128, 128, 128)).get_textcolor = (255, 255, 255) := by
  refine ⟨fun c h => ?_, fun c h => ?_, by decide, by decide, by decide⟩
  · unfold BeadColor.get_textcolor
    rw [if_neg (by omega)]
  · unfold BeadColor.get_textcolor
    rw [if_pos (by omega)]

theorem get_textcolor_threshold_witness :
    (BeadColor.init "" (1, 2, 3)).get_textcolor = (255, 255, 255) :=
  get_textcolor_threshold.1 (BeadColor.init "" (1, 2, 3)) (by decide)

/-- Claim C9: self-distance is zero under all three metrics for a fresh
entry over any rgb with components in `[0,255]`. -/
theorem self_distance_zero (name : String) (q : RGB) (hq : RGBInRange q) :
    (BeadColor.init name q).distance_rgb q = 0 ∧
    (BeadColor.init name q).distance_yuv q = 0 ∧
    (BeadColor.init name q).distance_hsv q = 0 := by
  refine ⟨?_, ?_, ?_⟩
  · unfold BeadColor.distance_rgb
    have h : (BeadColor.init name q).distance_rgb_sq q = 0 := by
      simp [BeadColor.distance_rgb_sq, BeadColor.init]
    rw [h]
    simp
  · unfold BeadColor.distance_yuv
    have h : ((BeadColor.init name q).distance_yuv_sq q).1 = 0 := by
      simp [BeadColor.distance_yuv_sq, BeadColor.init, sqDist3]
    rw [h]
    simp
  · unfold BeadColor.distance_hsv
    have h0 : hueDist (rgb2hsv q).1 (rgb2hsv q).1 = 0 := by
      simp only [hueDist, sub_self, abs_zero]
      rw [min_eq_left (by norm_num)]
      norm_num
    have h : ((BeadColor.init name q).distance_hsv_sq q).1 = 0 := by
      simp [BeadColor.distance_hsv_sq, BeadColor.init, hsvSqDist, h0]
    rw [h]
    simp

theorem self_distance_zero_witness :
    (BeadColor.init "g" (7, 8, 9)).distance_rgb (7, 8, 9) = 0 :=
  (self_distance_zero "g" (7, 8, 9) (by decide)).1

/-- Claim C10: on the documented domain `[0,255]^3` both color-dependent
weights of the RGB radicand stay strictly positive (the blue weight
`2 + (255 - rmean)/256` included, although `rmean = a.r + b.r/2` can reach
`382.5`), the radicand is nonnegative, and the RGB distance is a total
nonnegative value. -/
theorem distance_rgb_weights_positive (c : BeadColor) (q : RGB)
    (h1 : RGBInRange c.rgb) (h2 : RGBInRange q) :
    0 < 2 + ((c.rgb.1 : ℚ) + (q.1 : ℚ) / 2) / 256 ∧
    0 < 2 + (255 - ((c.rgb.1 : ℚ) + (q.1 : ℚ) / 2)) / 256 ∧
    0 ≤ c.distance_rgb_sq q ∧
    0 ≤ c.distance_rgb q := by
  obtain ⟨hw1, hw2, hrad⟩ := distance_rgb_sq_nonneg h1 h2
  exact ⟨hw1, hw2, hrad, Real.sqrt_nonneg _⟩

theorem distance_rgb_weights_positive_witness :
    0 ≤ (BeadColor.init "" (255, 255, 255)).distance_rgb_sq (0, 0, 0) :=
  (distance_rgb_weights_positive (BeadColor.init "" (255, 255, 255)) (0, 0, 0)
    (by decide) (by decide)).2.2.1
